import Mathlib

/-!
Verification development for the synthetic-question generation and filtering
pipeline of the umu-rag-eval repository.

The Python sources are shallowly embedded as follows:

* dictionaries holding chunk / record data become Lean structures;
* machine floats become exact rationals; cosine-similarity comparisons
  (the only way the code consumes similarities in the neighbor search)
  are encoded exactly over the rationals by sign analysis and squaring,
  so that `p / sqrt m <= q / sqrt n` is decided without square roots;
* the sklearn pairwise similarity matrix used by the duplicate filter is
  passed in as a function parameter (it is library code, not repository
  code, and the filter only reads the matrix entrywise);
* randomness (parameter sampling, uuid suffixes) and the remote LLM call
  become oracle functions carried in an environment record;
* Python exceptions become `Except String`; a task body that catches an
  exception returns an `ok` failure outcome, an uncaught one propagates
  as `error`.
-/

instance {ε α : Type} [DecidableEq ε] [DecidableEq α] : DecidableEq (Except ε α) := fun x y =>
  match x, y with
  | .ok a, .ok b =>
    if h : a = b then .isTrue (by rw [h]) else .isFalse (fun hh => h (Except.ok.inj hh))
  | .error e, .error f =>
    if h : e = f then .isTrue (by rw [h]) else .isFalse (fun hh => h (Except.error.inj hh))
  | .ok _, .error _ => .isFalse (fun hh => Except.noConfusion hh)
  | .error _, .ok _ => .isFalse (fun hh => Except.noConfusion hh)

/-- A corpus chunk, as produced by `get_all_chunks` in src/utils/search.py:
chunk_id, title, chunk text, and its embedding vector. -/
structure Chunk where
  chunk_id : String
  title : String
  chunk : String
  chunk_embedding : List ℚ
deriving DecidableEq

/-- A synthetic record as consumed by `filter_synthetic_questions` in
src/utils/clean_data.py.  The filter reads `synthetic_question` and
`synthetic_question_embedding`, writes `filtered_reason`, and leaves every
other key alone; the untouched remainder of the dictionary is abstracted
into the `rest` field. -/
structure SynthRecord where
  synthetic_question : String
  synthetic_question_embedding : Option (List ℚ)
  filtered_reason : Option String
  rest : String
deriving DecidableEq

/-- Python `str.strip()`: remove leading and trailing whitespace. -/
def pyStrip (s : String) : String :=
  ⟨((s.data.dropWhile Char.isWhitespace).reverse.dropWhile Char.isWhitespace).reverse⟩

/-- Helper for `pyWords`: split a character list on whitespace runs,
accumulating the current word (reversed) in `acc`. -/
def pyWordsAux : List Char → List Char → List (List Char)
  | [], [] => []
  | [], acc => [acc.reverse]
  | c :: cs, acc =>
    if c.isWhitespace then
      match acc with
      | [] => pyWordsAux cs []
      | _ => acc.reverse :: pyWordsAux cs []
    else pyWordsAux cs (c :: acc)

/-- Python `str.split()` with no separator: split on whitespace runs and
drop empty tokens. -/
def pyWords (s : String) : List String :=
  (pyWordsAux s.data []).map fun w => ⟨w⟩

/-- The word count `len(q.split())` computed by the length filter on the
already-stripped question `q`. -/
def questionWordCount (r : SynthRecord) : ℕ :=
  (pyWords (pyStrip r.synthetic_question)).length

/-- Set the `filtered_reason` key of a record (the only mutation the
filter performs). -/
def withReason (r : SynthRecord) (s : String) : SynthRecord :=
  { r with filtered_reason := some s }

/-- Stage A of `filter_synthetic_questions` (src/utils/clean_data.py lines
38-60): the length filter.  Processes records in order; a record goes to
the rejected side tagged with a reason when its stripped question is
empty, shorter than `minL` words, or longer than `maxL` words, and to the
accepted side otherwise. -/
def stageA (minL maxL : ℕ) : List SynthRecord → List SynthRecord × List SynthRecord
  | [] => ([], [])
  | item :: rest =>
    let P := stageA minL maxL rest
    let q := pyStrip item.synthetic_question
    if q = "" then
      (P.1, withReason item "Empty question" :: P.2)
    else
      let word_count := (pyWords q).length
      if word_count < minL then
        (P.1, withReason item ("Question too short: " ++ toString word_count ++
          " words (min " ++ toString minL ++ ")") :: P.2)
      else if maxL < word_count then
        (P.1, withReason item ("Question too long: " ++ toString word_count ++
          " words (max " ++ toString maxL ++ ")") :: P.2)
      else (item :: P.1, P.2)

/-- The reason string stage A attaches to a rejected record, as a function
of the record (specification-side restatement of the three branches). -/
def rejectReason (minL maxL : ℕ) (r : SynthRecord) : String :=
  let q := pyStrip r.synthetic_question
  if q = "" then "Empty question"
  else if (pyWords q).length < minL then
    "Question too short: " ++ toString (pyWords q).length ++
      " words (min " ++ toString minL ++ ")"
  else
    "Question too long: " ++ toString (pyWords q).length ++
      " words (max " ++ toString maxL ++ ")"

/-- The acceptance test of stage A, in the boundary-inclusive form used by
the specification: nonempty after stripping and `minL <= wc <= maxL`. -/
def stageAAccept (minL maxL : ℕ) (r : SynthRecord) : Bool :=
  decide (pyStrip r.synthetic_question ≠ "" ∧
    minL ≤ questionWordCount r ∧ questionWordCount r ≤ maxL)

/-- Inner loop of the duplicate detector (clean_data.py lines 83-88): scan
the indices `j` in `js` (the range `i+1 .. n-1`); skip a `j` already
marked removed; mark `j` removed when `similarity_matrix[i][j] >=
similarity_threshold`.  The Python `set` is modelled as a duplicate-free
list, read only through membership and emptiness. -/
def dupInner (sim : ℕ → ℕ → ℚ) (t : ℚ) (i : ℕ) :
    List ℕ → List ℕ → List ℕ
  | [], removed => removed
  | j :: js, removed =>
    if j ∈ removed then dupInner sim t i js removed
    else if t ≤ sim i j then dupInner sim t i js (j :: removed)
    else dupInner sim t i js removed

/-- Outer loop of the duplicate detector (clean_data.py lines 80-88): for
each index `i` in order, skip it when already marked removed, otherwise
run the inner scan over `j = i+1 .. n-1`. -/
def dupOuter (sim : ℕ → ℕ → ℚ) (t : ℚ) (n : ℕ) :
    List ℕ → List ℕ → List ℕ
  | [], removed => removed
  | i :: is, removed =>
    if i ∈ removed then dupOuter sim t n is removed
    else dupOuter sim t n is (dupInner sim t i (List.range' (i + 1) (n - (i + 1))) removed)

/-- The set `indices_to_remove` computed by the duplicate detector over an
`n × n` similarity matrix `sim` and threshold `t`. -/
def indicesToRemove (sim : ℕ → ℕ → ℚ) (n : ℕ) (t : ℚ) : List ℕ :=
  dupOuter sim t n (List.range n) []

/-- The re-partition loop of stage B (clean_data.py lines 108-114):
`enumerate` the stage-A survivors starting at index `i`; an index in
`removed` goes to the rejected side tagged with `reason`, every other
record stays accepted, order preserved. -/
def splitByRemoved (removed : List ℕ) (reason : String) :
    ℕ → List SynthRecord → List SynthRecord × List SynthRecord
  | _, [] => ([], [])
  | i, r :: rest =>
    let P := splitByRemoved removed reason (i + 1) rest
    if i ∈ removed then (P.1, withReason r reason :: P.2)
    else (r :: P.1, P.2)

/-- Extraction of the stage-B embeddings (clean_data.py line 71): Python
indexes `item["synthetic_question_embedding"]` on every survivor, raising
`KeyError` on the first record that lacks the key; `none` models that
exception. -/
def allEmbeddings : List SynthRecord → Option (List (List ℚ))
  | [] => some []
  | r :: rs =>
    match r.synthetic_question_embedding, allEmbeddings rs with
    | some e, some es => some (e :: es)
    | _, _ => none

/-- The function `filter_synthetic_questions` of src/utils/clean_data.py.
Stage A filters by length; stage B (only when `remove_duplicates` is set
and some record survived stage A) checks whether the FIRST survivor
carries an embedding, extracts all embeddings (raising, modelled as
`Except.error`, if any later survivor lacks one), computes the pairwise
similarity matrix and greedily removes later members of
above-threshold pairs.  The sklearn `cosine_similarity` call is library
code and is abstracted as the parameter `simOf`, mapping the extracted
embedding list to the entrywise matrix the loop reads. -/
def filter_synthetic_questions (simOf : List (List ℚ) → ℕ → ℕ → ℚ)
    (synthetic_data : List SynthRecord)
    (min_question_length max_question_length : ℕ)
    (similarity_threshold : ℚ) (remove_duplicates : Bool) :
    Except String (List SynthRecord × List SynthRecord) :=
  let AR := stageA min_question_length max_question_length synthetic_data
  match remove_duplicates, AR.1 with
  | true, a0 :: rest =>
    if a0.synthetic_question_embedding.isSome then
      match allEmbeddings (a0 :: rest) with
      | none => .error "KeyError: synthetic_question_embedding"
      | some embs =>
        let sim := simOf embs
        let removed := indicesToRemove sim (a0 :: rest).length similarity_threshold
        if removed = [] then .ok (a0 :: rest, AR.2)
        else
          let S := splitByRemoved removed
            ("Duplicate (similarity >= " ++ toString similarity_threshold ++ ")")
            0 (a0 :: rest)
          .ok (S.1, AR.2 ++ S.2)
    else .ok (a0 :: rest, AR.2)
  | _, _ => .ok (AR.1, AR.2)

/-- Dot product of two rational vectors (trailing entries of the longer
vector are ignored; the code only ever compares equal-length embeddings). -/
def dotQ : List ℚ → List ℚ → ℚ
  | x :: xs, y :: ys => x * y + dotQ xs ys
  | _, _ => 0

/-- Squared euclidean norm of a rational vector. -/
def sqnormQ (v : List ℚ) : ℚ := dotQ v v

/-- Exact comparison of two cosine-similarity values given as formal
quotients: `rawLe a m b n` decides `a / sqrt m <= b / sqrt n` for positive
`m`, `n`, by comparing signs and squaring.  The numerator of a value with
nonpositive denominator has already been normalised to `0` by the caller
(matching sklearn, where a zero vector gets similarity 0). -/
def rawLe (a m b n : ℚ) : Bool :=
  if a < 0 then
    if b < 0 then decide (b ^ 2 * m ≤ a ^ 2 * n) else true
  else if 0 < a then
    if 0 < b then decide (a ^ 2 * n ≤ b ^ 2 * m) else false
  else decide (0 ≤ b)

/-- Comparison of two cosine similarities, each encoded as a pair
`(p, m)` standing for the value `p / sqrt m` (with the convention that a
nonpositive `m`, which for actual embeddings means a zero vector, encodes
the value 0, as in sklearn). -/
def simLe (A B : ℚ × ℚ) : Bool :=
  rawLe (if A.2 ≤ 0 then 0 else A.1) (if A.2 ≤ 0 then 1 else A.2)
        (if B.2 ≤ 0 then 0 else B.1) (if B.2 ≤ 0 then 1 else B.2)

/-- The encoded cosine similarity between the main chunk and a candidate
chunk: numerator is the dot product of the two embeddings, and the square
of the denominator is the product of the squared norms, so the encoded
value is exactly sklearn's `cosine_similarity` of the two embeddings. -/
def simKey (main c : Chunk) : ℚ × ℚ :=
  (dotQ main.chunk_embedding c.chunk_embedding,
   sqnormQ main.chunk_embedding * sqnormQ c.chunk_embedding)

/-- Sorting relation on enumerated candidate chunks: ascending cosine
similarity to the main chunk.  Ties are left to the stability of the sort,
modelling the stable behaviour of numpy argsort on small inputs. -/
def chunkLe (main : Chunk) (a b : ℕ × Chunk) : Prop :=
  simLe (simKey main a.2) (simKey main b.2) = true

instance (main : Chunk) : DecidableRel (chunkLe main) :=
  fun _ _ => inferInstanceAs (Decidable (_ = true))

/-- The function `find_similar_chunks` of src/utils/search.py: drop every
chunk sharing the main chunk's id, return `[]` when nothing remains, and
otherwise take the first `k` chunks of the similarity-descending order
produced by `np.argsort(similarities)[::-1]` — an ascending stable sort of
the candidate indices followed by reversal. -/
def find_similar_chunks (main_chunk : Chunk) (all_chunks : List Chunk) (k : ℕ) :
    List Chunk :=
  let other_chunks := all_chunks.filter fun c => c.chunk_id != main_chunk.chunk_id
  if other_chunks.isEmpty then []
  else
    let sortedAsc := List.insertionSort (chunkLe main_chunk) other_chunks.enum
    ((sortedAsc.reverse).take k).map Prod.snd

/-- The task parameters sampled at the start of `generate_single_question`
(generate_data.py lines 169-177): domain, tone, difficulty, question
length, topic, language and the groundedness flag. -/
structure Params where
  domain : String
  tone : String
  difficulty : String
  question_length : ℕ
  topic : String
  language : String
  is_grounded : Bool
deriving DecidableEq

/-- The structured payload returned by the LLM (the `QuestionSchema`
pydantic model): parallel lists of questions, responses and
explanations. -/
structure GenResult where
  question : List String
  response : List String
  explanation : List String
deriving DecidableEq

/-- The `data` dictionary of a successful task (generate_data.py lines
195-212). -/
structure SuccessData where
  synthetic_question : String
  explanation : String
  synthetic_response : String
  chunk_id : String
  synthetic_chunk_id : String
  is_grounded : Bool
  main_chunk : String
  similar_chunks : List String
  domain : String
  difficulty : String
  tone : String
  language : String
  question_length : ℕ
deriving DecidableEq

/-- The `error` dictionary of a failed task (generate_data.py lines
215-228).  Note that the code stores `main_chunk`, the full source chunk
text, in the failure record. -/
structure FailureRecord where
  error : String
  chunk_id : String
  is_grounded : Bool
  main_chunk : String
  domain : String
  difficulty : String
  tone : String
  language : String
  question_length : ℕ
deriving DecidableEq

/-- Outcome of one task as returned (not raised) by
`generate_single_question`: the success dictionary or the failure
dictionary. -/
inductive TaskOutcome where
  | success (d : SuccessData)
  | failure (f : FailureRecord)
deriving DecidableEq

/-- The immutable state of a `SyntheticDataGenerator`: the model name and
the two system messages loaded at construction time. -/
structure GenConfig where
  model : String
  system_message_grounded : String
  system_message_not_grounded : String
deriving DecidableEq

/-- Oracles for the effectful collaborators of the generation pipeline:
parameter sampling (`get_domain` … `set_is_grounded`, file reads for the
task text), the remote chat-completion call (a function of the two
messages actually sent), and the uuid4 suffix supply, indexed by task
submission order.  Each oracle returns `Except` so that a raising Python
call is representable. -/
structure GenEnv where
  sample : Chunk → Except String Params
  taskText : Except String String
  llm : String × String → Except String GenResult
  freshId : ℕ → String

/-- The method `SyntheticDataGenerator.build_user_prompt` (generate_data.py
lines 51-82): pure string assembly.  The sampled topic is accepted as an
argument but never interpolated into the prompt. -/
def build_user_prompt (main_chunk : String) (similar_chunks : List String)
    (is_grounded : Bool) (domain difficulty topic language instructions : String)
    (question_length : ℕ) (task : String) : String :=
  let similar_chunks_text := String.intercalate "\n\n---\n\n"
    (similar_chunks.enum.map fun p =>
      "SIMILAR CHUNK " ++ toString (p.1 + 1) ++ ":\n" ++ p.2)
  "# MAIN CHUNK:\n" ++ main_chunk ++ "\n\n" ++
  "# SIMILAR CHUNKS:\n" ++ similar_chunks_text ++ "\n\n" ++
  "# Domain:\n" ++ domain ++ "\n\n" ++
  "# Difficulty:\n" ++ difficulty ++ "\n\n" ++
  "# Language:\n" ++ language ++ "\n\n" ++
  "# Instructions:\n" ++ instructions ++ "\n\n" ++
  "# Question Length (number of words):\n" ++ toString question_length ++ "\n\n" ++
  "# Task:\n" ++ task ++ "\n\n" ++
  "# Grounded: " ++ toString is_grounded ++ "\n"

/-- The method `SyntheticDataGenerator.get_system_message`: select the
grounded or not-grounded system message. -/
def get_system_message (cfg : GenConfig) (is_grounded : Bool) : String :=
  if is_grounded then cfg.system_message_grounded else cfg.system_message_not_grounded

/-- The pair (system message, user prompt) that `invoke_llm` sends to the
chat-completion endpoint for one task, as assembled inside
`generate_single_question`: instructions are the literal "None" and the
similar chunks are the texts of the k=5 nearest neighbors. -/
def taskMessages (cfg : GenConfig) (chunk : Chunk) (all_chunks : List Chunk)
    (p : Params) (task : String) : String × String :=
  (get_system_message cfg p.is_grounded,
   build_user_prompt chunk.chunk
     ((find_similar_chunks chunk all_chunks 5).map Chunk.chunk)
     p.is_grounded p.domain p.difficulty p.topic p.language "None"
     p.question_length task)

/-- The failure record assembled by the `except` handler of the task for
chunk `c` with sampled parameters `p` and error message `e`
(generate_data.py lines 215-228).  Note the `main_chunk` field: the code
stores the full source chunk text in the failure dictionary. -/
def mkFailureRecord (c : Chunk) (p : Params) (e : String) : FailureRecord :=
  { error := e, chunk_id := c.chunk_id, is_grounded := p.is_grounded,
    main_chunk := c.chunk, domain := p.domain, difficulty := p.difficulty,
    tone := p.tone, language := p.language, question_length := p.question_length }

/-- The success record assembled by the task for chunk `c` at submission
index `i` (generate_data.py lines 195-212): `synthetic_chunk_id` is the
source chunk id, the literal "_synthetic_", and the fresh uuid suffix. -/
def mkSuccessRecord (env : GenEnv) (i : ℕ) (c : Chunk) (all : List Chunk)
    (p : Params) (question explanation response : String) : SuccessData :=
  { synthetic_question := question, explanation := explanation,
    synthetic_response := response, chunk_id := c.chunk_id,
    synthetic_chunk_id := c.chunk_id ++ "_synthetic_" ++ env.freshId i,
    is_grounded := p.is_grounded, main_chunk := c.chunk,
    similar_chunks := (find_similar_chunks c all 5).map Chunk.chunk,
    domain := p.domain, difficulty := p.difficulty, tone := p.tone,
    language := p.language, question_length := p.question_length }

/-- The `try`/`except` region of the task body (generate_data.py lines
183-228), as a function of the generator call's result: a raising
generator call or an empty `result["question"]` list (Python raises
`IndexError`, message "list index out of range") is caught and becomes
the failure record; otherwise the success record is assembled. -/
def taskStep (env : GenEnv) (i : ℕ) (c : Chunk) (all : List Chunk) (p : Params)
    (x : Except String GenResult) : TaskOutcome :=
  match x with
  | .error e => .failure (mkFailureRecord c p e)
  | .ok result =>
    match result.question.head?, result.explanation.head?, result.response.head? with
    | some question, some explanation, some response =>
      .success (mkSuccessRecord env i c all p question explanation response)
    | _, _, _ => .failure (mkFailureRecord c p "list index out of range")

/-- The function `generate_single_question` (generate_data.py lines
164-228).  Parameter sampling and the task-text read happen before the
`try` block, so an error there propagates (`Except.error`); the neighbor
search is the embedded total function; from the generator call onward
(`taskStep`) errors are caught and turned into the failure outcome.  `i`
is the task submission index, used only to draw the uuid suffix. -/
def generate_single_question (env : GenEnv) (cfg : GenConfig) (i : ℕ)
    (chunk : Chunk) (all_chunks : List Chunk) : Except String TaskOutcome :=
  match env.sample chunk with
  | .error e => .error e
  | .ok p =>
    match env.taskText with
    | .error e => .error e
    | .ok task =>
      .ok (taskStep env i chunk all_chunks p
        (env.llm (taskMessages cfg chunk all_chunks p task)))

/-- The collection loop of `generate_synthetic_questions`: run the task
for each chunk (the thread pool is modelled by submission order, which
fixes one of the unspecified `as_completed` interleavings), partition the
returned outcomes, and propagate any exception a task raised — in the
code, `future.result()` re-raises it and nothing in
`generate_synthetic_questions` catches it. -/
def genGo (env : GenEnv) (cfg : GenConfig) (all_chunks : List Chunk) :
    ℕ → List Chunk → Except String (List SuccessData × List FailureRecord)
  | _, [] => .ok ([], [])
  | i, c :: cs =>
    match generate_single_question env cfg i c all_chunks with
    | .error e => .error e
    | .ok r =>
      match genGo env cfg all_chunks (i + 1) cs with
      | .error e => .error e
      | .ok P =>
        match r with
        | .success d => .ok (d :: P.1, P.2)
        | .failure f => .ok (P.1, f :: P.2)

/-- The function `generate_synthetic_questions` (generate_data.py lines
231-262): one task per chunk, each task given the full chunk list for the
neighbor search. -/
def generate_synthetic_questions (env : GenEnv) (cfg : GenConfig)
    (chunks : List Chunk) : Except String (List SuccessData × List FailureRecord) :=
  genGo env cfg chunks 0 chunks

/-- Whether the task for chunk `c` at submission index `i` completes with
the failure outcome (as opposed to succeeding or raising). -/
def taskFails (env : GenEnv) (cfg : GenConfig) (all_chunks : List Chunk)
    (i : ℕ) (c : Chunk) : Bool :=
  match generate_single_question env cfg i c all_chunks with
  | .ok (.failure _) => true
  | _ => false

/-- Strip the filter-added reason from a record, recovering the record as
it entered `filter_synthetic_questions`. -/
def stripReason (r : SynthRecord) : SynthRecord :=
  { r with filtered_reason := none }

/-- Concrete chunks used to exercise the neighbor search: the target `cT`
and two candidates whose embeddings point in the same direction as the
target, hence with equal cosine similarity 1 to it. -/
def cT : Chunk := { chunk_id := "t", title := "", chunk := "T", chunk_embedding := [1] }

/-- First candidate (earlier in the population), embedding `[1]`. -/
def cA : Chunk := { chunk_id := "a", title := "", chunk := "A", chunk_embedding := [1] }

/-- Second candidate (later in the population), embedding `[2]`. -/
def cB : Chunk := { chunk_id := "b", title := "", chunk := "B", chunk_embedding := [2] }

/-- Boundary records for the length-filter witness (with `minL = 2` and
`maxL = 3`): 1, 2, 3 and 4 words, and an all-whitespace question. -/
def boundaryRecords : List SynthRecord :=
  [ { synthetic_question := "one", synthetic_question_embedding := none,
      filtered_reason := none, rest := "w1" },
    { synthetic_question := "one two", synthetic_question_embedding := none,
      filtered_reason := none, rest := "w2" },
    { synthetic_question := "one two three", synthetic_question_embedding := none,
      filtered_reason := none, rest := "w3" },
    { synthetic_question := "one two three four", synthetic_question_embedding := none,
      filtered_reason := none, rest := "w4" },
    { synthetic_question := "  ", synthetic_question_embedding := none,
      filtered_reason := none, rest := "w5" } ]

/-- The threshold 0.95 as a kernel-reducible rational literal. -/
def q95 : ℚ := ⟨19, 20, by norm_num, by norm_num⟩

/-- The similarity value 0.97 as a kernel-reducible rational literal. -/
def q97 : ℚ := ⟨97, 100, by norm_num, by norm_num⟩

/-- The similarity value 0.2 as a kernel-reducible rational literal. -/
def q15 : ℚ := ⟨1, 5, by norm_num, by norm_num⟩

/-- The similarity matrix of the C1 scenario: sim(0,1) = 1.0,
sim(0,2) = 0.2, sim(1,2) = 0.97, symmetric, 1 on the diagonal. -/
def simC1 : ℕ → ℕ → ℚ := fun i j =>
  if i = j then 1
  else if (i = 0 ∧ j = 1) ∨ (i = 1 ∧ j = 0) then 1
  else if (i = 0 ∧ j = 2) ∨ (i = 2 ∧ j = 0) then q15
  else if (i = 1 ∧ j = 2) ∨ (i = 2 ∧ j = 1) then q97
  else 0

/-- First record of the C1 scenario (5-word question, embedding present). -/
def dupR0 : SynthRecord :=
  { synthetic_question := "one two three four five",
    synthetic_question_embedding := some [], filtered_reason := none, rest := "d0" }

/-- Second record of the C1 scenario. -/
def dupR1 : SynthRecord :=
  { synthetic_question := "one two three four six",
    synthetic_question_embedding := some [], filtered_reason := none, rest := "d1" }

/-- Third record of the C1 scenario. -/
def dupR2 : SynthRecord :=
  { synthetic_question := "one two three four seven",
    synthetic_question_embedding := some [], filtered_reason := none, rest := "d2" }

/-- Record with an embedding and a 5-word question. -/
def mixedA : SynthRecord :=
  { synthetic_question := "one two three four five",
    synthetic_question_embedding := some [], filtered_reason := none, rest := "mA" }

/-- Record WITHOUT an embedding and a 5-word question. -/
def mixedB : SynthRecord :=
  { synthetic_question := "five four three two one",
    synthetic_question_embedding := none, filtered_reason := none, rest := "mB" }

/-- Concrete generator configuration for witnesses. -/
def cfgW : GenConfig :=
  { model := "gpt", system_message_grounded := "SYS-G",
    system_message_not_grounded := "SYS-N" }

/-- Concrete parameter sample; `pW2` below differs from it only in topic
and tone. -/
def pW1 : Params :=
  { domain := "law", tone := "formal", difficulty := "easy", question_length := 7,
    topic := "alpha", language := "en", is_grounded := true }

/-- Same sample with a different topic and a different tone. -/
def pW2 : Params :=
  { domain := "law", tone := "casual", difficulty := "easy", question_length := 7,
    topic := "beta", language := "en", is_grounded := true }

/-- The last eight characters of a string, reversed — for a
`synthetic_chunk_id` this is exactly the (reversed) fresh uuid suffix. -/
def idSuffix (s : String) : List Char := s.data.reverse.take 8

/-- A source chunk whose text must not leak into failure records
according to the specification. -/
def cSec : Chunk :=
  { chunk_id := "c1", title := "", chunk := "SECRET", chunk_embedding := [1] }

/-- A fixed structured LLM payload. -/
def resW : GenResult := { question := ["Q?"], response := ["R!"], explanation := ["E."] }

/-- Environment in which every task succeeds. -/
def envGood : GenEnv :=
  { sample := fun _ => .ok pW1, taskText := .ok "TASK",
    llm := fun _ => .ok resW, freshId := fun _ => "abcdefgh" }

/-- Environment in which parameter sampling raises — an error BEFORE the
`try` block of the task body. -/
def envBad : GenEnv :=
  { sample := fun _ => .error "boom", taskText := .ok "TASK",
    llm := fun _ => .ok resW, freshId := fun _ => "abcdefgh" }

/-- Environment in which the generator call raises — an error INSIDE the
`try` block of the task body. -/
def envErr : GenEnv :=
  { sample := fun _ => .ok pW1, taskText := .ok "TASK",
    llm := fun _ => .error "boom", freshId := fun _ => "abcdefgh" }

/-- The accepted records of the all-success single-chunk run. -/
def accW : List SuccessData :=
  [mkSuccessRecord envGood 0 cSec [cSec] pW1 "Q?" "E." "R!"]

/-- Evaluation of `rawLe` when both values are negative. -/
theorem rawLe_neg_neg {a b : ℚ} (m n : ℚ) (ha : a < 0) (hb : b < 0) :
    rawLe a m b n = decide (b ^ 2 * m ≤ a ^ 2 * n) := by
  unfold rawLe; rw [if_pos ha, if_pos hb]

/-- Evaluation of `rawLe` when the left value is negative and the right is
not. -/
theorem rawLe_neg_nonneg {a b : ℚ} (m n : ℚ) (ha : a < 0) (hb : ¬ b < 0) :
    rawLe a m b n = true := by
  unfold rawLe; rw [if_pos ha, if_neg hb]

/-- Evaluation of `rawLe` when both values are positive. -/
theorem rawLe_pos_pos {a b : ℚ} (m n : ℚ) (ha : 0 < a) (hb : 0 < b) :
    rawLe a m b n = decide (a ^ 2 * n ≤ b ^ 2 * m) := by
  unfold rawLe; rw [if_neg (asymm ha), if_pos ha, if_pos hb]

/-- Evaluation of `rawLe` when the left value is positive and the right is
not. -/
theorem rawLe_pos_nonpos {a b : ℚ} (m n : ℚ) (ha : 0 < a) (hb : ¬ 0 < b) :
    rawLe a m b n = false := by
  unfold rawLe; rw [if_neg (asymm ha), if_pos ha, if_neg hb]

/-- Evaluation of `rawLe` when the left value is zero. -/
theorem rawLe_zero {a : ℚ} (m n : ℚ) (b : ℚ) (ha : a = 0) :
    rawLe a m b n = decide (0 ≤ b) := by
  unfold rawLe; rw [ha, if_neg (lt_irrefl 0), if_neg (lt_irrefl 0)]

/-- The comparison `rawLe` is total. -/
theorem rawLe_total (a m b n : ℚ) : rawLe a m b n = true ∨ rawLe b n a m = true := by
  rcases lt_trichotomy a 0 with ha | ha | ha
  · rcases lt_trichotomy b 0 with hb | hb | hb
    · rw [rawLe_neg_neg m n ha hb, rawLe_neg_neg n m hb ha]
      simpa using le_total (b ^ 2 * m) (a ^ 2 * n)
    · left; rw [rawLe_neg_nonneg m n ha (by rw [hb]; exact lt_irrefl 0)]
    · left; rw [rawLe_neg_nonneg m n ha (asymm hb)]
  · by_cases hb : 0 ≤ b
    · left; rw [rawLe_zero m n b ha]; simpa using hb
    · right; rw [rawLe_neg_nonneg n m (lt_of_not_le hb) (by rw [ha]; exact lt_irrefl 0)]
  · rcases lt_trichotomy b 0 with hb | hb | hb
    · right; rw [rawLe_neg_nonneg n m hb (asymm ha)]
    · right; rw [rawLe_zero n m a hb]; simpa using ha.le
    · rw [rawLe_pos_pos m n ha hb, rawLe_pos_pos n m hb ha]
      simpa using le_total (a ^ 2 * n) (b ^ 2 * m)

/-- The comparison `rawLe` is transitive for values with positive
denominator squares. -/
theorem rawLe_trans (a m b n c o : ℚ) (hm : 0 < m) (hn : 0 < n) (ho : 0 < o)
    (h1 : rawLe a m b n = true) (h2 : rawLe b n c o = true) :
    rawLe a m c o = true := by
  rcases lt_trichotomy b 0 with hb | hb | hb
  · -- b < 0: h1 forces a < 0 (a = 0 and a > 0 both contradict h1)
    have ha : a < 0 := by
      rcases lt_trichotomy a 0 with ha | ha | ha
      · exact ha
      · rw [rawLe_zero m n b ha] at h1
        exact absurd (of_decide_eq_true h1) (not_le_of_lt hb)
      · rw [rawLe_pos_nonpos m n ha (asymm hb)] at h1
        exact absurd h1 (by simp)
    rcases lt_trichotomy c 0 with hc | hc | hc
    · rw [rawLe_neg_neg m n ha hb] at h1
      rw [rawLe_neg_neg n o hb hc] at h2
      rw [rawLe_neg_neg m o ha hc]
      have h1' := of_decide_eq_true h1
      have h2' := of_decide_eq_true h2
      have h1o := mul_le_mul_of_nonneg_right h1' ho.le
      have h2m := mul_le_mul_of_nonneg_right h2' hm.le
      have hchain : c ^ 2 * m * n ≤ a ^ 2 * o * n := by ring_nf at h1o h2m ⊢; linarith
      simpa using le_of_mul_le_mul_right hchain hn
    · rw [rawLe_neg_nonneg m o ha (by rw [hc]; exact lt_irrefl 0)]
    · rw [rawLe_neg_nonneg m o ha (asymm hc)]
  · -- b = 0: h2 forces 0 ≤ c, and h1 forces a < 0 or a = 0
    rw [rawLe_zero n o c hb] at h2
    have hc := of_decide_eq_true h2
    rcases lt_trichotomy a 0 with ha | ha | ha
    · rw [rawLe_neg_nonneg m o ha (not_lt_of_le hc)]
    · rw [rawLe_zero m o c ha]; simpa using hc
    · rw [rawLe_pos_nonpos m n ha (by rw [hb]; exact lt_irrefl 0)] at h1
      exact absurd h1 (by simp)
  · -- b > 0: h2 forces 0 < c
    have hc : 0 < c := by
      rcases lt_trichotomy c 0 with hc | hc | hc
      · rw [rawLe_pos_nonpos n o hb (asymm hc)] at h2
        exact absurd h2 (by simp)
      · rw [rawLe_pos_nonpos n o hb (by rw [hc]; exact lt_irrefl 0)] at h2
        exact absurd h2 (by simp)
      · exact hc
    rcases lt_trichotomy a 0 with ha | ha | ha
    · rw [rawLe_neg_nonneg m o ha (asymm hc)]
    · rw [rawLe_zero m o c ha]; simpa using hc.le
    · rw [rawLe_pos_pos m n ha hb] at h1
      rw [rawLe_pos_pos n o hb hc] at h2
      rw [rawLe_pos_pos m o ha hc]
      have h1' := of_decide_eq_true h1
      have h2' := of_decide_eq_true h2
      have h1o := mul_le_mul_of_nonneg_right h1' ho.le
      have h2m := mul_le_mul_of_nonneg_right h2' hm.le
      have hchain : a ^ 2 * o * n ≤ c ^ 2 * m * n := by ring_nf at h1o h2m ⊢; linarith
      simpa using le_of_mul_le_mul_right hchain hn

/-- Positivity of the normalised denominator square used by `simLe`. -/
theorem normDen_pos (x : ℚ) : 0 < (if x ≤ 0 then (1 : ℚ) else x) := by
  split
  · norm_num
  · next h => exact lt_of_not_le h

/-- The similarity comparison is total. -/
theorem simLe_total (A B : ℚ × ℚ) : simLe A B = true ∨ simLe B A = true := by
  unfold simLe
  exact rawLe_total _ _ _ _

/-- The similarity comparison is transitive. -/
theorem simLe_trans (A B C : ℚ × ℚ) (h1 : simLe A B = true) (h2 : simLe B C = true) :
    simLe A C = true := by
  unfold simLe at h1 h2 ⊢
  exact rawLe_trans _ _ _ _ _ _ (normDen_pos A.2) (normDen_pos B.2) (normDen_pos C.2) h1 h2

/-- C3: for every target chunk and population of chunks with distinct ids,
`find_similar_chunks` never returns a chunk with the target's id; it
returns exactly `min k n` chunks where `n` is the size of the population
minus the target; when `n ≤ k` it returns every other chunk (as a
permutation of the filtered population); when the population minus the
target is empty it returns the empty list rather than raising; and the
returned list is ordered by descending cosine similarity to the target
(`simLe` is the exact rational encoding of the comparison of the two
cosine-similarity values). -/
theorem find_similar_chunks_spec (main : Chunk) (all : List Chunk) (k : ℕ)
    (hids : (all.map Chunk.chunk_id).Nodup) :
    (∀ c ∈ find_similar_chunks main all k, c.chunk_id ≠ main.chunk_id)
    ∧ (find_similar_chunks main all k).length
        = min k (all.filter fun c => c.chunk_id != main.chunk_id).length
    ∧ ((all.filter fun c => c.chunk_id != main.chunk_id).length ≤ k →
        (find_similar_chunks main all k).Perm
          (all.filter fun c => c.chunk_id != main.chunk_id))
    ∧ ((all.filter fun c => c.chunk_id != main.chunk_id) = [] →
        find_similar_chunks main all k = [])
    ∧ (find_similar_chunks main all k).Pairwise
        (fun a b => simLe (simKey main b) (simKey main a) = true) := by
  classical
  set others := all.filter fun c => c.chunk_id != main.chunk_id with hothers
  have hchar : find_similar_chunks main all k
      = if others.isEmpty then []
        else ((List.insertionSort (chunkLe main) others.enum).reverse.take k).map
          Prod.snd := rfl
  by_cases hE : others.isEmpty
  · have hnil : others = [] := List.isEmpty_iff.mp hE
    rw [hchar, if_pos hE]
    refine ⟨by simp, by simp [hnil], by simp [hnil], by simp, by simp⟩
  · rw [hchar, if_neg hE]
    haveI hTot : IsTotal (ℕ × Chunk) (chunkLe main) := ⟨fun x y => simLe_total _ _⟩
    haveI hTrans : IsTrans (ℕ × Chunk) (chunkLe main) := ⟨fun x y z => simLe_trans _ _ _⟩
    have hperm : (List.insertionSort (chunkLe main) others.enum).Perm others.enum :=
      List.perm_insertionSort _ _
    have hsorted : List.Sorted (chunkLe main) (List.insertionSort (chunkLe main) others.enum) :=
      List.sorted_insertionSort _ _
    have hlen : (List.insertionSort (chunkLe main) others.enum).length = others.length := by
      rw [List.length_insertionSort, List.enum_length]
    refine ⟨?_, ?_, ?_, ?_, ?_⟩
    · intro c hc
      obtain ⟨p, hp, hpc⟩ := List.mem_map.mp hc
      have hp1 : p ∈ (List.insertionSort (chunkLe main) others.enum).reverse :=
        List.take_subset _ _ hp
      have hp2 : p ∈ others.enum := hperm.mem_iff.mp (List.mem_reverse.mp hp1)
      have hp3 : p.2 ∈ others := by
        have := List.mem_map_of_mem Prod.snd hp2
        rwa [List.enum_map_snd] at this
      have := (List.mem_filter.mp (hothers ▸ hp3)).2
      rw [hpc] at this
      simpa using this
    · rw [List.length_map, List.length_take, List.length_reverse, hlen]
    · intro hk
      have htake : (List.insertionSort (chunkLe main) others.enum).reverse.take k
          = (List.insertionSort (chunkLe main) others.enum).reverse := by
        apply List.take_of_length_le
        rw [List.length_reverse, hlen]; exact hk
      rw [htake]
      have s1 : ((List.insertionSort (chunkLe main) others.enum).reverse.map Prod.snd).Perm
          ((List.insertionSort (chunkLe main) others.enum).map Prod.snd) :=
        ((List.insertionSort (chunkLe main) others.enum).reverse_perm).map _
      have s2 : ((List.insertionSort (chunkLe main) others.enum).map Prod.snd).Perm
          (others.enum.map Prod.snd) := hperm.map _
      rw [List.enum_map_snd] at s2
      exact s1.trans s2
    · intro h
      exact absurd (List.isEmpty_iff.mpr h) hE
    · refine List.pairwise_map.mpr ?_
      have hrev : ((List.insertionSort (chunkLe main) others.enum).reverse).Pairwise
          (fun a b => chunkLe main b a) :=
        List.pairwise_reverse.mpr hsorted
      exact List.Pairwise.sublist (List.take_sublist _ _) hrev

/-- Witness for C3 at a concrete population. -/
theorem find_similar_chunks_spec_witness :
    (([cT, cA].map Chunk.chunk_id).Nodup)
    ∧ ((∀ c ∈ find_similar_chunks cT [cT, cA] 1, c.chunk_id ≠ cT.chunk_id)
    ∧ (find_similar_chunks cT [cT, cA] 1).length
        = min 1 ([cT, cA].filter fun c => c.chunk_id != cT.chunk_id).length
    ∧ (([cT, cA].filter fun c => c.chunk_id != cT.chunk_id).length ≤ 1 →
        (find_similar_chunks cT [cT, cA] 1).Perm
          ([cT, cA].filter fun c => c.chunk_id != cT.chunk_id))
    ∧ (([cT, cA].filter fun c => c.chunk_id != cT.chunk_id) = [] →
        find_similar_chunks cT [cT, cA] 1 = [])
    ∧ (find_similar_chunks cT [cT, cA] 1).Pairwise
        (fun a b => simLe (simKey cT b) (simKey cT a) = true)) :=
  ⟨by decide, find_similar_chunks_spec cT [cT, cA] 1 (by decide)⟩

/-- C4 counterexample: `cA` and `cB` have equal cosine similarity 1 to the
target `cT`, `cA` appears before `cB` in the population, yet the search
returns `[cB, cA]` — the tie is NOT broken by original population order. -/
theorem find_similar_chunks_tie_cex :
    simLe (simKey cT cA) (simKey cT cB) = true
    ∧ simLe (simKey cT cB) (simKey cT cA) = true
    ∧ find_similar_chunks cT [cT, cA, cB] 5 = [cB, cA]
    ∧ find_similar_chunks cT [cT, cA, cB] 5 ≠ [cA, cB] := by
  have h1 : simLe (simKey cT cA) (simKey cT cB) = true := by
    norm_num [simLe, rawLe, simKey, dotQ, sqnormQ, cT, cA, cB]
  have h2 : simLe (simKey cT cB) (simKey cT cA) = true := by
    norm_num [simLe, rawLe, simKey, dotQ, sqnormQ, cT, cA, cB]
  have hchar : find_similar_chunks cT [cT, cA, cB] 5
      = if ([cT, cA, cB].filter fun c => c.chunk_id != cT.chunk_id).isEmpty then []
        else ((List.insertionSort (chunkLe cT)
          ([cT, cA, cB].filter fun c => c.chunk_id != cT.chunk_id).enum).reverse.take 5).map
          Prod.snd := rfl
  have hf : [cT, cA, cB].filter (fun c => c.chunk_id != cT.chunk_id) = [cA, cB] := by decide
  have hres : find_similar_chunks cT [cT, cA, cB] 5 = [cB, cA] := by
    rw [hchar, hf]
    have hno : ([cA, cB] : List Chunk).isEmpty = false := rfl
    rw [hno]
    simp only [Bool.false_eq_true, if_false, List.enum, List.enumFrom,
      List.insertionSort, List.orderedInsert]
    have hc : chunkLe cT (0, cA) (1, cB) := h1
    rw [if_pos hc]
    rfl
  exact ⟨h1, h2, hres, by rw [hres]; decide⟩

/-- C4 amended: when exactly two candidates survive the id filter and they
have equal cosine similarity to the target, `np.argsort(...)[::-1]`
(ascending stable argsort, then reversal) puts the LATER candidate first:
ties are broken by reverse population order, not by original order. -/
theorem find_similar_chunks_tie_reverse_order (main a b : Chunk) (all : List Chunk)
    (k : ℕ)
    (hf : all.filter (fun c => c.chunk_id != main.chunk_id) = [a, b])
    (h2 : 2 ≤ k)
    (htie : simLe (simKey main a) (simKey main b) = true) :
    find_similar_chunks main all k = [b, a] := by
  have hchar : find_similar_chunks main all k
      = if (all.filter fun c => c.chunk_id != main.chunk_id).isEmpty then []
        else ((List.insertionSort (chunkLe main)
          (all.filter fun c => c.chunk_id != main.chunk_id).enum).reverse.take k).map
          Prod.snd := rfl
  rw [hchar, hf]
  have hno : ([a, b] : List Chunk).isEmpty = false := rfl
  rw [hno]
  simp only [Bool.false_eq_true, if_false, List.enum, List.enumFrom,
    List.insertionSort, List.orderedInsert]
  have hc : chunkLe main (0, a) (1, b) := htie
  rw [if_pos hc]
  simp only [List.reverse_cons, List.reverse_nil, List.nil_append, List.cons_append]
  rw [List.take_of_length_le (by simpa using h2)]
  rfl

/-- Witness for the amended C4 at a concrete population. -/
theorem find_similar_chunks_tie_reverse_order_witness :
    ([cT, cA, cB].filter (fun c => c.chunk_id != cT.chunk_id) = [cA, cB])
    ∧ 2 ≤ 5
    ∧ simLe (simKey cT cA) (simKey cT cB) = true
    ∧ find_similar_chunks cT [cT, cA, cB] 5 = [cB, cA] :=
  ⟨by decide, by norm_num,
   by norm_num [simLe, rawLe, simKey, dotQ, sqnormQ, cT, cA, cB],
   find_similar_chunks_tie_reverse_order cT cA cB [cT, cA, cB] 5 (by decide)
     (by norm_num) (by norm_num [simLe, rawLe, simKey, dotQ, sqnormQ, cT, cA, cB])⟩

/-- The accepted side of stage A is the filter of the input by the
boundary-inclusive acceptance condition. -/
theorem stageA_fst (minL maxL : ℕ) (rs : List SynthRecord) :
    (stageA minL maxL rs).1 = rs.filter (stageAAccept minL maxL) := by
  induction rs with
  | nil => rfl
  | cons r rest ih =>
    by_cases hq : pyStrip r.synthetic_question = ""
    · have hacc : stageAAccept minL maxL r = false := by simp [stageAAccept, hq]
      simp [stageA, hq, hacc, ih]
    · by_cases hshort : (pyWords (pyStrip r.synthetic_question)).length < minL
      · have hacc : stageAAccept minL maxL r = false := by
          simp [stageAAccept, hq, questionWordCount]
          intro
          omega
        simp [stageA, hq, hshort, hacc, ih]
      · by_cases hlong : maxL < (pyWords (pyStrip r.synthetic_question)).length
        · have hacc : stageAAccept minL maxL r = false := by
            simp [stageAAccept, hq, questionWordCount]
            intro
            omega
          simp [stageA, hq, hshort, hlong, hacc, ih]
        · have hacc : stageAAccept minL maxL r = true := by
            simp [stageAAccept, hq, questionWordCount]
            omega
          simp [stageA, hq, hshort, hlong, hacc, ih]

/-- The rejected side of stage A: the complement filter, each record
tagged with the branch-determined reason. -/
theorem stageA_snd (minL maxL : ℕ) (rs : List SynthRecord) :
    (stageA minL maxL rs).2
      = (rs.filter fun r => ! stageAAccept minL maxL r).map
          (fun r => withReason r (rejectReason minL maxL r)) := by
  induction rs with
  | nil => rfl
  | cons r rest ih =>
    by_cases hq : pyStrip r.synthetic_question = ""
    · have hacc : stageAAccept minL maxL r = false := by simp [stageAAccept, hq]
      have hreason : rejectReason minL maxL r = "Empty question" := by
        simp [rejectReason, hq]
      simp [stageA, hq, hacc, hreason, ih]
    · by_cases hshort : (pyWords (pyStrip r.synthetic_question)).length < minL
      · have hacc : stageAAccept minL maxL r = false := by
          simp [stageAAccept, hq, questionWordCount]
          intro
          omega
        have hreason : rejectReason minL maxL r
            = "Question too short: "
              ++ toString (pyWords (pyStrip r.synthetic_question)).length
              ++ " words (min " ++ toString minL ++ ")" := by
          simp [rejectReason, hq, hshort]
        simp [stageA, hq, hshort, hacc, hreason, ih]
      · by_cases hlong : maxL < (pyWords (pyStrip r.synthetic_question)).length
        · have hacc : stageAAccept minL maxL r = false := by
            simp [stageAAccept, hq, questionWordCount]
            intro
            omega
          have hreason : rejectReason minL maxL r
              = "Question too long: "
                ++ toString (pyWords (pyStrip r.synthetic_question)).length
                ++ " words (max " ++ toString maxL ++ ")" := by
            simp [rejectReason, hq, hshort, hlong]
          simp [stageA, hq, hshort, hlong, hacc, hreason, ih]
        · have hacc : stageAAccept minL maxL r = true := by
            simp [stageAAccept, hq, questionWordCount]
            omega
          simp [stageA, hq, hshort, hlong, hacc, ih]

/-- C5: the stage-A length filter accepts exactly the records whose
stripped question is nonempty with whitespace-token word count between
`minL` and `maxL` inclusive (so a question of exactly `minL` or exactly
`maxL` words is accepted); accepted records are the filter of the input
(hence keep their relative order and are unchanged); each rejected record
is its input value with only a `filtered_reason` added, whose text
contains "too short" when the count is below `minL` and "too long" when
it is above `maxL`. -/
theorem stageA_spec (minL maxL : ℕ) (rs : List SynthRecord) :
    (stageA minL maxL rs).1 = rs.filter (stageAAccept minL maxL)
    ∧ (stageA minL maxL rs).2
        = (rs.filter fun r => ! stageAAccept minL maxL r).map
            (fun r => withReason r (rejectReason minL maxL r))
    ∧ (∀ r ∈ rs, pyStrip r.synthetic_question ≠ "" → questionWordCount r < minL →
        ∃ s t, rejectReason minL maxL r = s ++ "too short" ++ t)
    ∧ (∀ r ∈ rs, minL ≤ questionWordCount r → maxL < questionWordCount r →
        ∃ s t, rejectReason minL maxL r = s ++ "too long" ++ t) := by
  refine ⟨stageA_fst minL maxL rs, stageA_snd minL maxL rs, ?_, ?_⟩
  · intro r _ hq hshort
    have hshort' : (pyWords (pyStrip r.synthetic_question)).length < minL := hshort
    refine ⟨"Question ",
      ": " ++ toString (pyWords (pyStrip r.synthetic_question)).length
        ++ " words (min " ++ toString minL ++ ")", ?_⟩
    simp only [rejectReason, if_neg hq, if_pos hshort']
    simp only [String.append_assoc]
    conv_rhs => rw [← String.append_assoc, ← String.append_assoc]
    rfl
  · intro r _ hmin hlong
    have hq' : pyStrip r.synthetic_question ≠ "" := by
      intro h
      have h0 : questionWordCount r = 0 := by
        simp [questionWordCount, h, pyWords, pyWordsAux]
      omega
    have hshort' : ¬ (pyWords (pyStrip r.synthetic_question)).length < minL :=
      not_lt.mpr hmin
    refine ⟨"Question ",
      ": " ++ toString (pyWords (pyStrip r.synthetic_question)).length
        ++ " words (max " ++ toString maxL ++ ")", ?_⟩
    simp only [rejectReason, if_neg hq', if_neg hshort']
    simp only [String.append_assoc]
    conv_rhs => rw [← String.append_assoc, ← String.append_assoc]
    rfl

/-- Witness for C5 on the boundary records. -/
theorem stageA_spec_witness :
    (stageA 2 3 boundaryRecords).1 = boundaryRecords.filter (stageAAccept 2 3)
    ∧ (stageA 2 3 boundaryRecords).2
        = (boundaryRecords.filter fun r => ! stageAAccept 2 3 r).map
            (fun r => withReason r (rejectReason 2 3 r))
    ∧ (∀ r ∈ boundaryRecords, pyStrip r.synthetic_question ≠ "" →
        questionWordCount r < 2 →
        ∃ s t, rejectReason 2 3 r = s ++ "too short" ++ t)
    ∧ (∀ r ∈ boundaryRecords, 2 ≤ questionWordCount r → 3 < questionWordCount r →
        ∃ s t, rejectReason 2 3 r = s ++ "too long" ++ t) :=
  stageA_spec 2 3 boundaryRecords

/-- C1 counterexample: in the claimed scenario (sim(0,1) = 1 ≥ 0.95,
sim(0,2) = 0.2 < 0.95, sim(1,2) = 0.97 ≥ 0.95) the filter removes ONLY
record 1 and keeps records 0 AND 2: the outer loop skips index 1 because
it is already marked removed, so record 2 is never compared against it.
The claim that both 1 and 2 are removed, leaving only record 0, is
false. -/
theorem filter_dup_cex :
    q95 ≤ simC1 0 1 ∧ ¬ q95 ≤ simC1 0 2 ∧ q95 ≤ simC1 1 2
    ∧ filter_synthetic_questions (fun _ => simC1) [dupR0, dupR1, dupR2] 5 50 q95 true
        = .ok ([dupR0, dupR2],
            [withReason dupR1 ("Duplicate (similarity >= " ++ toString q95 ++ ")")])
    ∧ ([dupR0, dupR2] : List SynthRecord) ≠ [dupR0] := by
  refine ⟨by decide, by decide, by decide, by decide, by decide⟩

/-- C1 amended: with three stage-A-surviving records carrying embeddings
and a similarity matrix with sim(0,1) ≥ t, sim(0,2) < t (sim(1,2)
arbitrary, in particular ≥ t), the duplicate filter moves exactly record 1
to the rejected partition and keeps records 0 and 2: removal marks are
checked on the outer index, so the scan for i = 1 is skipped entirely. -/
theorem filter_dup_keeps_record_two (sim : ℕ → ℕ → ℚ) (t : ℚ) (minL maxL : ℕ)
    (r0 r1 r2 : SynthRecord)
    (hacc0 : stageAAccept minL maxL r0 = true)
    (hacc1 : stageAAccept minL maxL r1 = true)
    (hacc2 : stageAAccept minL maxL r2 = true)
    (he0 : r0.synthetic_question_embedding.isSome)
    (he1 : r1.synthetic_question_embedding.isSome)
    (he2 : r2.synthetic_question_embedding.isSome)
    (hs01 : t ≤ sim 0 1) (hs02 : ¬ t ≤ sim 0 2) (hs12 : t ≤ sim 1 2) :
    filter_synthetic_questions (fun _ => sim) [r0, r1, r2] minL maxL t true
      = .ok ([r0, r2], [withReason r1 ("Duplicate (similarity >= " ++ toString t ++ ")")]) := by
  have hA : stageA minL maxL [r0, r1, r2] = ([r0, r1, r2], []) := by
    have h1 := stageA_fst minL maxL [r0, r1, r2]
    have h2 := stageA_snd minL maxL [r0, r1, r2]
    rw [Prod.ext_iff]
    constructor
    · rw [h1]; simp [List.filter, hacc0, hacc1, hacc2]
    · rw [h2]; simp [List.filter, hacc0, hacc1, hacc2]
  obtain ⟨e0, he0'⟩ := Option.isSome_iff_exists.mp he0
  obtain ⟨e1, he1'⟩ := Option.isSome_iff_exists.mp he1
  obtain ⟨e2, he2'⟩ := Option.isSome_iff_exists.mp he2
  have hinner : dupInner sim t 0 [1, 2] [] = [1] := by
    unfold dupInner
    rw [if_neg (by decide : ¬ (1 : ℕ) ∈ ([] : List ℕ)), if_pos hs01]
    unfold dupInner
    rw [if_neg (by decide : ¬ (2 : ℕ) ∈ ([1] : List ℕ)), if_neg hs02]
    rfl
  have hremoved : indicesToRemove sim 3 t = [1] := by
    have hr : List.range 3 = [0, 1, 2] := by decide
    unfold indicesToRemove
    rw [hr]
    unfold dupOuter
    rw [if_neg (by decide : ¬ (0 : ℕ) ∈ ([] : List ℕ))]
    have hrange : List.range' (0 + 1) (3 - (0 + 1)) = [1, 2] := by decide
    rw [hrange, hinner]
    unfold dupOuter
    rw [if_pos (by decide : (1 : ℕ) ∈ ([1] : List ℕ))]
    unfold dupOuter
    rw [if_neg (by decide : ¬ (2 : ℕ) ∈ ([1] : List ℕ))]
    have hrange2 : List.range' (2 + 1) (3 - (2 + 1)) = [] := by decide
    rw [hrange2]
    unfold dupInner dupOuter
    rfl
  simp only [filter_synthetic_questions, hA]
  rw [he0']
  simp only [Option.isSome_some, if_pos]
  simp only [allEmbeddings, he0', he1', he2']
  simp only [List.length_cons, List.length_nil]
  rw [hremoved]
  rw [if_neg (by decide : ¬ ([1] : List ℕ) = [])]
  simp only [splitByRemoved]
  norm_num

/-- Witness for the amended C1 at the concrete scenario records. -/
theorem filter_dup_keeps_record_two_witness :
    (stageAAccept 5 50 dupR0 = true ∧ stageAAccept 5 50 dupR1 = true
      ∧ stageAAccept 5 50 dupR2 = true
      ∧ dupR0.synthetic_question_embedding.isSome
      ∧ dupR1.synthetic_question_embedding.isSome
      ∧ dupR2.synthetic_question_embedding.isSome
      ∧ q95 ≤ simC1 0 1 ∧ ¬ q95 ≤ simC1 0 2 ∧ q95 ≤ simC1 1 2)
    ∧ filter_synthetic_questions (fun _ => simC1) [dupR0, dupR1, dupR2] 5 50 q95 true
        = .ok ([dupR0, dupR2],
            [withReason dupR1 ("Duplicate (similarity >= " ++ toString q95 ++ ")")]) :=
  ⟨⟨by decide, by decide, by decide, by decide, by decide, by decide,
    by decide, by decide, by decide⟩,
   filter_dup_keeps_record_two simC1 q95 5 50 dupR0 dupR1 dupR2
     (by decide) (by decide) (by decide) (by decide) (by decide) (by decide)
     (by decide) (by decide) (by decide)⟩

/-- If some record in the list lacks an embedding, the stage-B embedding
extraction raises (returns `none`). -/
theorem allEmbeddings_none {l : List SynthRecord}
    (h : ∃ r ∈ l, r.synthetic_question_embedding = none) : allEmbeddings l = none := by
  induction l with
  | nil => simp at h
  | cons r rs ih =>
    rcases h with ⟨x, hx, hxe⟩
    rcases List.mem_cons.mp hx with hx | hx
    · subst hx
      simp [allEmbeddings, hxe]
    · have := ih ⟨x, hx, hxe⟩
      unfold allEmbeddings
      rw [this]
      cases r.synthetic_question_embedding <;> rfl

/-- If every record carries an embedding, extraction succeeds. -/
theorem allEmbeddings_some {l : List SynthRecord}
    (h : ∀ r ∈ l, r.synthetic_question_embedding.isSome) :
    ∃ es, allEmbeddings l = some es := by
  induction l with
  | nil => exact ⟨[], rfl⟩
  | cons r rs ih =>
    obtain ⟨es, hes⟩ := ih fun x hx => h x (List.mem_cons_of_mem _ hx)
    obtain ⟨e, he⟩ := Option.isSome_iff_exists.mp (h r (List.mem_cons_self _ _))
    exact ⟨e :: es, by simp [allEmbeddings, he, hes]⟩

/-- C6 counterexample: both records survive stage A, the second carries no
embedding (so not every survivor does), yet stage B is NOT a no-op: since
the guard inspects only the FIRST survivor, the extraction raises a
KeyError instead of skipping duplicate detection. -/
theorem filter_embed_guard_cex :
    (stageA 5 50 [mixedA, mixedB]).1 = [mixedA, mixedB]
    ∧ mixedB.synthetic_question_embedding = none
    ∧ filter_synthetic_questions (fun _ _ _ => 0) [mixedA, mixedB] 5 50 q95 true
        = .error "KeyError: synthetic_question_embedding" :=
  ⟨by decide, by decide, by decide⟩

/-- Characterisation of the filter when stage A accepts nothing. -/
theorem filter_synth_nil (simOf : List (List ℚ) → ℕ → ℕ → ℚ) (data : List SynthRecord)
    (minL maxL : ℕ) (t : ℚ) (h : (stageA minL maxL data).1 = []) :
    filter_synthetic_questions simOf data minL maxL t true
      = .ok ([], (stageA minL maxL data).2) := by
  simp only [filter_synthetic_questions]
  rw [h]

/-- Characterisation of the filter once stage A's accepted list is exposed
as a cons: the body of the `remove_duplicates` branch. -/
theorem filter_synth_cons (simOf : List (List ℚ) → ℕ → ℕ → ℚ) (data : List SynthRecord)
    (minL maxL : ℕ) (t : ℚ) (a0 : SynthRecord) (tl : List SynthRecord)
    (h : (stageA minL maxL data).1 = a0 :: tl) :
    filter_synthetic_questions simOf data minL maxL t true
      = (if a0.synthetic_question_embedding.isSome then
          match allEmbeddings (a0 :: tl) with
          | none => .error "KeyError: synthetic_question_embedding"
          | some embs =>
            if indicesToRemove (simOf embs) (a0 :: tl).length t = [] then
              .ok (a0 :: tl, (stageA minL maxL data).2)
            else
              .ok ((splitByRemoved (indicesToRemove (simOf embs) (a0 :: tl).length t)
                      ("Duplicate (similarity >= " ++ toString t ++ ")") 0 (a0 :: tl)).1,
                   (stageA minL maxL data).2
                     ++ (splitByRemoved (indicesToRemove (simOf embs) (a0 :: tl).length t)
                          ("Duplicate (similarity >= " ++ toString t ++ ")") 0
                          (a0 :: tl)).2)
        else .ok (a0 :: tl, (stageA minL maxL data).2)) := by
  simp only [filter_synthetic_questions]
  rw [h]

/-- C6 amended: with `remove_duplicates` enabled, stage B runs iff the
FIRST stage-A survivor carries an embedding.  When there are no survivors,
or the first survivor lacks an embedding, the result is the stage-A
partition unchanged (no-op, no error) — even if other survivors do carry
embeddings; when the first survivor carries one but some later survivor
does not, the whole call raises (KeyError), modelled as `Except.error`. -/
theorem filter_embed_guard_first_only (simOf : List (List ℚ) → ℕ → ℕ → ℚ)
    (data : List SynthRecord) (minL maxL : ℕ) (t : ℚ) :
    ((stageA minL maxL data).1 = [] →
      filter_synthetic_questions simOf data minL maxL t true
        = .ok (stageA minL maxL data))
    ∧ (∀ a0 tl, (stageA minL maxL data).1 = a0 :: tl →
        a0.synthetic_question_embedding = none →
        filter_synthetic_questions simOf data minL maxL t true
          = .ok (stageA minL maxL data))
    ∧ (∀ a0 tl, (stageA minL maxL data).1 = a0 :: tl →
        a0.synthetic_question_embedding.isSome →
        (∃ r ∈ (stageA minL maxL data).1, r.synthetic_question_embedding = none) →
        filter_synthetic_questions simOf data minL maxL t true
          = .error "KeyError: synthetic_question_embedding") := by
  refine ⟨?_, ?_, ?_⟩
  · intro h
    rw [filter_synth_nil simOf data minL maxL t h]
    conv_rhs => rw [← Prod.mk.eta (p := stageA minL maxL data)]
    rw [h]
  · intro a0 tl h hnone
    rw [filter_synth_cons simOf data minL maxL t a0 tl h]
    rw [hnone]
    simp only [Option.isSome_none, Bool.false_eq_true, if_false]
    conv_rhs => rw [← Prod.mk.eta (p := stageA minL maxL data)]
    rw [h]
  · intro a0 tl h hsome hnone
    have hext : allEmbeddings (a0 :: tl) = none := by
      rw [← h]
      exact allEmbeddings_none hnone
    rw [filter_synth_cons simOf data minL maxL t a0 tl h]
    rw [if_pos hsome, hext]

/-- Witness for the amended C6, at a population whose FIRST survivor lacks
an embedding while the second carries one: stage B is skipped without
raising. -/
theorem filter_embed_guard_first_only_witness :
    (((stageA 5 50 [mixedB, mixedA]).1 = [] →
      filter_synthetic_questions (fun _ _ _ => 0) [mixedB, mixedA] 5 50 q95 true
        = .ok (stageA 5 50 [mixedB, mixedA]))
    ∧ (∀ a0 tl, (stageA 5 50 [mixedB, mixedA]).1 = a0 :: tl →
        a0.synthetic_question_embedding = none →
        filter_synthetic_questions (fun _ _ _ => 0) [mixedB, mixedA] 5 50 q95 true
          = .ok (stageA 5 50 [mixedB, mixedA]))
    ∧ (∀ a0 tl, (stageA 5 50 [mixedB, mixedA]).1 = a0 :: tl →
        a0.synthetic_question_embedding.isSome →
        (∃ r ∈ (stageA 5 50 [mixedB, mixedA]).1,
          r.synthetic_question_embedding = none) →
        filter_synthetic_questions (fun _ _ _ => 0) [mixedB, mixedA] 5 50 q95 true
          = .error "KeyError: synthetic_question_embedding"))
    ∧ filter_synthetic_questions (fun _ _ _ => 0) [mixedB, mixedA] 5 50 q95 true
        = .ok ([mixedB, mixedA], []) :=
  ⟨filter_embed_guard_first_only (fun _ _ _ => 0) [mixedB, mixedA] 5 50 q95,
   by decide⟩

/-- The kept side of the stage-B re-partition is a sublist of its input. -/
theorem splitByRemoved_fst_sublist (removed : List ℕ) (reason : String) :
    ∀ (i : ℕ) (l : List SynthRecord),
      (splitByRemoved removed reason i l).1.Sublist l := by
  intro i l
  induction l generalizing i with
  | nil => simp [splitByRemoved]
  | cons r rest ih =>
    simp only [splitByRemoved]
    by_cases hm : i ∈ removed
    · rw [if_pos hm]
      exact (ih (i + 1)).cons r
    · rw [if_neg hm]
      exact (ih (i + 1)).cons₂ r

/-- Stage-B re-partition preserves the multiset of reason-stripped
records. -/
theorem splitByRemoved_perm (removed : List ℕ) (reason : String) :
    ∀ (i : ℕ) (l : List SynthRecord),
      ((splitByRemoved removed reason i l).1.map stripReason
        ++ (splitByRemoved removed reason i l).2.map stripReason).Perm
        (l.map stripReason) := by
  intro i l
  induction l generalizing i with
  | nil => simp [splitByRemoved]
  | cons r rest ih =>
    simp only [splitByRemoved]
    by_cases hm : i ∈ removed
    · rw [if_pos hm]
      simp only [List.map_cons]
      have : stripReason (withReason r reason) = stripReason r := rfl
      rw [this]
      exact (List.perm_middle).trans ((ih (i + 1)).cons (stripReason r))
    · rw [if_neg hm]
      simp only [List.map_cons, List.cons_append]
      exact (ih (i + 1)).cons (stripReason r)

/-- Every record on the rejected side of the stage-B re-partition is an
input record with only the duplicate reason added. -/
theorem splitByRemoved_snd_shape (removed : List ℕ) (reason : String) :
    ∀ (i : ℕ) (l : List SynthRecord),
      ∀ r ∈ (splitByRemoved removed reason i l).2,
        ∃ r₀ ∈ l, r = withReason r₀ reason := by
  intro i l
  induction l generalizing i with
  | nil => simp [splitByRemoved]
  | cons x rest ih =>
    intro r hr
    simp only [splitByRemoved] at hr
    by_cases hm : i ∈ removed
    · rw [if_pos hm] at hr
      rcases List.mem_cons.mp hr with hr | hr
      · exact ⟨x, List.mem_cons_self _ _, hr⟩
      · obtain ⟨r₀, hr₀, he⟩ := ih (i + 1) r hr
        exact ⟨r₀, List.mem_cons_of_mem _ hr₀, he⟩
    · rw [if_neg hm] at hr
      obtain ⟨r₀, hr₀, he⟩ := ih (i + 1) r hr
      exact ⟨r₀, List.mem_cons_of_mem _ hr₀, he⟩

/-- Characterisation of the filter with duplicate removal disabled. -/
theorem filter_synth_false (simOf : List (List ℚ) → ℕ → ℕ → ℚ) (data : List SynthRecord)
    (minL maxL : ℕ) (t : ℚ) :
    filter_synthetic_questions simOf data minL maxL t false
      = .ok ((stageA minL maxL data).1, (stageA minL maxL data).2) := by
  simp only [filter_synthetic_questions]

/-- Stage A preserves the multiset of reason-stripped records. -/
theorem stageA_perm (minL maxL : ℕ) (data : List SynthRecord) :
    ((stageA minL maxL data).1.map stripReason
      ++ (stageA minL maxL data).2.map stripReason).Perm
      (data.map stripReason) := by
  rw [stageA_fst, stageA_snd]
  have hmm : ((data.filter fun r => ! stageAAccept minL maxL r).map
        (fun r => withReason r (rejectReason minL maxL r))).map stripReason
      = (data.filter fun r => ! stageAAccept minL maxL r).map stripReason := by
    rw [List.map_map]
    rfl
  rw [hmm, ← List.map_append]
  exact (List.filter_append_perm (stageAAccept minL maxL) data).map stripReason

/-- Every record on the rejected side of stage A is an input record with
only a reason added. -/
theorem stageA_snd_shape (minL maxL : ℕ) (data : List SynthRecord) :
    ∀ r ∈ (stageA minL maxL data).2, ∃ r₀ ∈ data, ∃ s, r = withReason r₀ s := by
  rw [stageA_snd]
  intro r hr
  obtain ⟨r₀, hr₀, he⟩ := List.mem_map.mp hr
  exact ⟨r₀, (List.mem_filter.mp hr₀).1, rejectReason minL maxL r₀, he.symm⟩

/-- C9: whenever `filter_synthetic_questions` returns (does not raise), it
partitions its input: the accepted list is a sublist of the input (so
accepted records are input records, unchanged, in input order), the
reason-stripped accepted and rejected records together are a permutation
of the reason-stripped inputs (each input lands in exactly one of the two
lists), and every rejected record is an input record with only the
`filtered_reason` field set. -/
theorem filter_partition_spec (simOf : List (List ℚ) → ℕ → ℕ → ℚ)
    (data : List SynthRecord) (minL maxL : ℕ) (t : ℚ) (rd : Bool)
    (acc rej : List SynthRecord)
    (h : filter_synthetic_questions simOf data minL maxL t rd = .ok (acc, rej)) :
    acc.Sublist data
    ∧ (acc.map stripReason ++ rej.map stripReason).Perm (data.map stripReason)
    ∧ (∀ r ∈ rej, ∃ r₀ ∈ data, ∃ s, r = withReason r₀ s) := by
  have hsubA : (stageA minL maxL data).1.Sublist data := by
    rw [stageA_fst]
    exact List.filter_sublist data
  have hpermA := stageA_perm minL maxL data
  have hshapeA := stageA_snd_shape minL maxL data
  cases rd with
  | false =>
    rw [filter_synth_false] at h
    obtain ⟨h1, h2⟩ := Prod.mk.injEq .. ▸ (Except.ok.inj h)
    subst h1
    subst h2
    exact ⟨hsubA, hpermA, hshapeA⟩
  | true =>
    rcases hA : (stageA minL maxL data).1 with _ | ⟨a0, tl⟩
    · rw [filter_synth_nil simOf data minL maxL t hA] at h
      obtain ⟨h1, h2⟩ := Prod.mk.injEq .. ▸ (Except.ok.inj h)
      subst h1
      subst h2
      rw [hA] at hsubA hpermA
      exact ⟨hsubA, hpermA, hshapeA⟩
    · rw [filter_synth_cons simOf data minL maxL t a0 tl hA] at h
      have hconssub : (a0 :: tl).Sublist data := hA ▸ hsubA
      by_cases hsome : a0.synthetic_question_embedding.isSome
      · rw [if_pos hsome] at h
        split at h
        · exact absurd h (by simp)
        · next es hext =>
          split at h
          · obtain ⟨h1, h2⟩ := Prod.mk.injEq .. ▸ (Except.ok.inj h)
            subst h1
            subst h2
            rw [hA] at hpermA
            exact ⟨hconssub, hpermA, hshapeA⟩
          · obtain ⟨h1, h2⟩ := Prod.mk.injEq .. ▸ (Except.ok.inj h)
            subst h1
            subst h2
            set removed := indicesToRemove (simOf es) (a0 :: tl).length t with hrem
            set reason := "Duplicate (similarity >= " ++ toString t ++ ")" with hreas
            refine ⟨?_, ?_, ?_⟩
            · exact (splitByRemoved_fst_sublist removed reason 0 (a0 :: tl)).trans hconssub
            · have hS := splitByRemoved_perm removed reason 0 (a0 :: tl)
              rw [hA] at hpermA
              rw [List.map_append]
              have step1 : ((splitByRemoved removed reason 0 (a0 :: tl)).1.map stripReason
                  ++ ((stageA minL maxL data).2.map stripReason
                      ++ (splitByRemoved removed reason 0 (a0 :: tl)).2.map stripReason)).Perm
                  (((splitByRemoved removed reason 0 (a0 :: tl)).1.map stripReason
                    ++ (splitByRemoved removed reason 0 (a0 :: tl)).2.map stripReason)
                    ++ (stageA minL maxL data).2.map stripReason) := by
                rw [List.append_assoc]
                exact List.Perm.append_left _ (List.perm_append_comm)
              refine step1.trans ?_
              refine (hS.append_right _).trans ?_
              exact hpermA
            · intro r hr
              rcases List.mem_append.mp hr with hr | hr
              · exact hshapeA r hr
              · obtain ⟨r₀, hr₀, he⟩ := splitByRemoved_snd_shape removed reason 0 (a0 :: tl) r hr
                exact ⟨r₀, hconssub.subset hr₀, reason, he⟩
      · rw [if_neg hsome] at h
        obtain ⟨h1, h2⟩ := Prod.mk.injEq .. ▸ (Except.ok.inj h)
        subst h1
        subst h2
        rw [hA] at hpermA
        exact ⟨hconssub, hpermA, hshapeA⟩

/-- C10: the text sent to the chat-completion endpoint is independent of
the sampled topic and tone.  For any two parameter samples that agree on
domain, difficulty, language, question length and groundedness — topic
and tone left completely unconstrained — the assembled user prompt is
identical, and so is the full (system message, user prompt) pair a task
sends; tone is not even an argument of the prompt assembly or of
`taskMessages`, so it can only reach the output records as metadata. -/
theorem llm_input_independent_of_topic_tone (cfg : GenConfig) (chunk : Chunk)
    (all : List Chunk) (p₁ p₂ : Params) (task : String)
    (hdom : p₁.domain = p₂.domain) (hdiff : p₁.difficulty = p₂.difficulty)
    (hlang : p₁.language = p₂.language)
    (hlen : p₁.question_length = p₂.question_length)
    (hgr : p₁.is_grounded = p₂.is_grounded) :
    build_user_prompt chunk.chunk ((find_similar_chunks chunk all 5).map Chunk.chunk)
        p₁.is_grounded p₁.domain p₁.difficulty p₁.topic p₁.language "None"
        p₁.question_length task
      = build_user_prompt chunk.chunk ((find_similar_chunks chunk all 5).map Chunk.chunk)
        p₂.is_grounded p₂.domain p₂.difficulty p₂.topic p₂.language "None"
        p₂.question_length task
    ∧ taskMessages cfg chunk all p₁ task = taskMessages cfg chunk all p₂ task := by
  constructor
  · unfold build_user_prompt
    rw [hdom, hdiff, hlang, hlen, hgr]
  · unfold taskMessages get_system_message build_user_prompt
    rw [hdom, hdiff, hlang, hlen, hgr]

/-- Witness for C10: two samples differing only in topic and tone yield
the same prompt and the same message pair. -/
theorem llm_input_independent_of_topic_tone_witness :
    build_user_prompt cT.chunk ((find_similar_chunks cT [cT] 5).map Chunk.chunk)
        pW1.is_grounded pW1.domain pW1.difficulty pW1.topic pW1.language "None"
        pW1.question_length "TASK"
      = build_user_prompt cT.chunk ((find_similar_chunks cT [cT] 5).map Chunk.chunk)
        pW2.is_grounded pW2.domain pW2.difficulty pW2.topic pW2.language "None"
        pW2.question_length "TASK"
    ∧ taskMessages cfgW cT [cT] pW1 "TASK" = taskMessages cfgW cT [cT] pW2 "TASK" :=
  llm_input_independent_of_topic_tone cfgW cT [cT] pW1 pW2 "TASK"
    rfl rfl rfl rfl rfl

/-- Evaluation of the task body once sampling and the task-text read have
succeeded: everything from the generator call onward is in the caught
region, so the task returns an outcome, never raises. -/
theorem generate_single_eq (env : GenEnv) (cfg : GenConfig) (i : ℕ) (c : Chunk)
    (all : List Chunk) (p : Params) (task : String)
    (hs : env.sample c = .ok p) (ht : env.taskText = .ok task) :
    generate_single_question env cfg i c all
      = .ok (taskStep env i c all p (env.llm (taskMessages cfg c all p task))) := by
  unfold generate_single_question
  rw [hs, ht]

/-- When sampling and the task-text read succeed, the task body always
RETURNS (with a success or failure outcome). -/
theorem generate_single_ok (env : GenEnv) (cfg : GenConfig) (i : ℕ) (c : Chunk)
    (all : List Chunk) (p : Params) (task : String)
    (hs : env.sample c = .ok p) (ht : env.taskText = .ok task) :
    ∃ out, generate_single_question env cfg i c all = .ok out :=
  ⟨_, generate_single_eq env cfg i c all p task hs ht⟩

/-- Induction core for C2: with sampling and the task text succeeding on
every chunk, the collection loop returns, the accepted and failed counts
sum to the task count, and the failed count is exactly the number of
tasks whose outcome is a failure record. -/
theorem genGo_spec (env : GenEnv) (cfg : GenConfig) (all : List Chunk)
    (cs : List Chunk) (i : ℕ)
    (hs : ∀ c ∈ cs, ∃ p, env.sample c = .ok p)
    (ht : ∃ s, env.taskText = .ok s) :
    ∃ acc fl, genGo env cfg all i cs = .ok (acc, fl)
      ∧ acc.length + fl.length = cs.length
      ∧ fl.length = (List.enumFrom i cs).countP
          (fun pr => taskFails env cfg all pr.1 pr.2) := by
  induction cs generalizing i with
  | nil => exact ⟨[], [], rfl, rfl, rfl⟩
  | cons c cs ih =>
    obtain ⟨p, hp⟩ := hs c (List.mem_cons_self _ _)
    obtain ⟨s, hts⟩ := ht
    obtain ⟨out, hout⟩ := generate_single_ok env cfg i c all p s hp hts
    obtain ⟨acc, fl, hgo, hlen, hcnt⟩ :=
      ih (i + 1) (fun x hx => hs x (List.mem_cons_of_mem _ hx))
    have henum : List.enumFrom i (c :: cs) = (i, c) :: List.enumFrom (i + 1) cs := rfl
    cases out with
    | success d =>
      have hcons : genGo env cfg all i (c :: cs) = .ok (d :: acc, fl) := by
        unfold genGo
        rw [hout, hgo]
      refine ⟨d :: acc, fl, hcons, by simp only [List.length_cons]; omega, ?_⟩
      have hfail : taskFails env cfg all i c = false := by
        unfold taskFails
        rw [hout]
      rw [henum, List.countP_cons]
      simp [hfail, hcnt]
    | failure f =>
      have hcons : genGo env cfg all i (c :: cs) = .ok (acc, f :: fl) := by
        unfold genGo
        rw [hout, hgo]
      refine ⟨acc, f :: fl, hcons, by simp only [List.length_cons]; omega, ?_⟩
      have hfail : taskFails env cfg all i c = true := by
        unfold taskFails
        rw [hout]
      rw [henum, List.countP_cons]
      simp [hfail, hcnt]

/-- The suffix extractor recovers the uuid suffix from an id of the form
`cid ++ "_synthetic_" ++ s` with `s` of length 8. -/
theorem idSuffix_mk (cid s : String) (h : s.length = 8) :
    idSuffix (cid ++ "_synthetic_" ++ s) = s.data.reverse := by
  unfold idSuffix
  rw [String.data_append, List.reverse_append]
  apply List.take_left'
  rw [List.length_reverse]
  exact h

/-- A successful outcome of the task step carries the id built from the
record's own chunk id and the index-`i` fresh suffix. -/
theorem taskStep_success_id (env : GenEnv) (i : ℕ) (c : Chunk) (all : List Chunk)
    (p : Params) (x : Except String GenResult) (d : SuccessData)
    (h : taskStep env i c all p x = .success d) :
    d.synthetic_chunk_id = d.chunk_id ++ "_synthetic_" ++ env.freshId i := by
  rcases x with e | result
  · simp [taskStep] at h
  · rcases h1 : result.question.head? with _ | q
    · simp [taskStep, h1] at h
    · rcases h2 : result.explanation.head? with _ | ex
      · simp [taskStep, h1, h2] at h
      · rcases h3 : result.response.head? with _ | resp
        · simp [taskStep, h1, h2, h3] at h
        · simp only [taskStep, h1, h2, h3] at h
          have hd := TaskOutcome.success.inj h
          rw [← hd]
          rfl

/-- A returning task is one whose sampling and task-text read succeeded,
and its outcome is the task step on the generator result. -/
theorem generate_single_ok_inv (env : GenEnv) (cfg : GenConfig) (i : ℕ) (c : Chunk)
    (all : List Chunk) (out : TaskOutcome)
    (h : generate_single_question env cfg i c all = .ok out) :
    ∃ p task, env.sample c = .ok p ∧ env.taskText = .ok task
      ∧ out = taskStep env i c all p (env.llm (taskMessages cfg c all p task)) := by
  unfold generate_single_question at h
  rcases hs : env.sample c with e | p <;> rw [hs] at h
  · exact Except.noConfusion h
  · rcases ht : env.taskText with e | task <;> rw [ht] at h
    · exact Except.noConfusion h
    · exact ⟨p, task, rfl, rfl, (Except.ok.inj h).symm⟩

/-- Induction core for C7: the reversed uuid suffixes of the accepted
records form a sublist of the reversed fresh suffixes drawn at the
consumed indices, and every accepted record's id is its chunk id plus a
drawn suffix. -/
theorem genGo_id_suffixes (env : GenEnv) (cfg : GenConfig) (all : List Chunk)
    (cs : List Chunk) (i : ℕ) (acc : List SuccessData) (fl : List FailureRecord)
    (hfresh : ∀ j, i ≤ j → j < i + cs.length → (env.freshId j).length = 8)
    (h : genGo env cfg all i cs = .ok (acc, fl)) :
    ((acc.map fun d => d.synthetic_chunk_id).map idSuffix).Sublist
      ((List.range' i cs.length).map fun j => (env.freshId j).data.reverse)
    ∧ ∀ d ∈ acc, ∃ j, i ≤ j ∧ j < i + cs.length
        ∧ d.synthetic_chunk_id = d.chunk_id ++ "_synthetic_" ++ env.freshId j := by
  induction cs generalizing i acc fl with
  | nil =>
    unfold genGo at h
    obtain ⟨h1, h2⟩ := Prod.mk.injEq .. ▸ (Except.ok.inj h)
    subst h1
    simp
  | cons c cs ih =>
    unfold genGo at h
    rcases hgen : generate_single_question env cfg i c all with e | out <;> rw [hgen] at h
    · exact absurd h (by simp)
    · rcases hgo : genGo env cfg all (i + 1) cs with e | P <;> rw [hgo] at h
      · exact absurd h (by simp)
      · have hfresh' : ∀ j, i + 1 ≤ j → j < (i + 1) + cs.length →
            (env.freshId j).length = 8 := by
          intro j hj1 hj2
          apply hfresh j (by omega)
          simp only [List.length_cons]
          omega
        obtain ⟨P1, P2⟩ := P
        have hrange : List.range' i (c :: cs).length
            = i :: List.range' (i + 1) cs.length := by
          rw [List.length_cons, List.range'_succ]
        cases out with
        | success d =>
          obtain ⟨h1, h2⟩ := Prod.mk.injEq .. ▸ (Except.ok.inj h)
          subst h1
          obtain ⟨hsub, hmem⟩ := ih (i + 1) P1 P2 hfresh' hgo
          obtain ⟨p, task, hsp, htt, hstep⟩ :=
            generate_single_ok_inv env cfg i c all (.success d) hgen
          have hid := taskStep_success_id env i c all p _ d hstep.symm
          have hlen8 : (env.freshId i).length = 8 := by
            apply hfresh i le_rfl
            simp only [List.length_cons]
            omega
          have hhead : idSuffix d.synthetic_chunk_id = (env.freshId i).data.reverse := by
            rw [hid]
            exact idSuffix_mk _ _ hlen8
          rw [hrange]
          constructor
          · simp only [List.map_cons]
            rw [hhead]
            exact hsub.cons₂ _
          · intro d' hd'
            rcases List.mem_cons.mp hd' with hd' | hd'
            · subst hd'
              refine ⟨i, le_rfl, ?_, hid⟩
              simp only [List.length_cons]
              omega
            · obtain ⟨j, hj1, hj2, hj3⟩ := hmem d' hd'
              refine ⟨j, by omega, ?_, hj3⟩
              simp only [List.length_cons]
              omega
        | failure f =>
          obtain ⟨h1, h2⟩ := Prod.mk.injEq .. ▸ (Except.ok.inj h)
          subst h1
          obtain ⟨hsub, hmem⟩ := ih (i + 1) P1 P2 hfresh' hgo
          rw [hrange]
          refine ⟨hsub.trans (List.sublist_cons_self _ _), ?_⟩
          intro d hd
          obtain ⟨j, hj1, hj2, hj3⟩ := hmem d hd
          refine ⟨j, by omega, ?_, hj3⟩
          simp only [List.length_cons]
          omega

/-- C7: in any run that returns, if the uuid suffixes drawn for the run
are pairwise distinct 8-character strings (the model of fresh
`str(uuid.uuid4())[:8]` draws), then all accepted records carry pairwise
distinct `synthetic_chunk_id`s — even when records share a source
`chunk_id`, because the id is the source chunk id plus the fresh
suffix, and the suffix occupies the last 8 characters. -/
theorem synthetic_ids_unique (env : GenEnv) (cfg : GenConfig) (chunks : List Chunk)
    (acc : List SuccessData) (fl : List FailureRecord)
    (hfresh : ∀ j < chunks.length, (env.freshId j).length = 8)
    (hnodup : ((List.range chunks.length).map env.freshId).Nodup)
    (h : generate_synthetic_questions env cfg chunks = .ok (acc, fl)) :
    (acc.map fun d => d.synthetic_chunk_id).Nodup
    ∧ ∀ d ∈ acc, ∃ j, j < chunks.length
        ∧ d.synthetic_chunk_id = d.chunk_id ++ "_synthetic_" ++ env.freshId j := by
  have hfresh0 : ∀ j, 0 ≤ j → j < 0 + chunks.length → (env.freshId j).length = 8 := by
    intro j _ hj
    exact hfresh j (by omega)
  obtain ⟨hsub, hmem⟩ := genGo_id_suffixes env cfg chunks chunks 0 acc fl hfresh0 h
  have hr : List.range' 0 chunks.length = List.range chunks.length :=
    (List.range_eq_range' _).symm
  rw [hr] at hsub
  have hmapmap : (List.range chunks.length).map (fun j => (env.freshId j).data.reverse)
      = ((List.range chunks.length).map env.freshId).map (fun s => s.data.reverse) := by
    rw [List.map_map]
    rfl
  have htarget : ((List.range chunks.length).map
      fun j => (env.freshId j).data.reverse).Nodup := by
    rw [hmapmap]
    refine hnodup.map ?_
    intro a b hab
    apply String.ext
    exact List.reverse_injective hab
  have hnd : ((acc.map fun d => d.synthetic_chunk_id).map idSuffix).Nodup :=
    htarget.sublist hsub
  refine ⟨hnd.of_map, ?_⟩
  intro d hd
  obtain ⟨j, _, hj2, hj3⟩ := hmem d hd
  exact ⟨j, by omega, hj3⟩

/-- C8 amended: the failure record of a task whose generator call raised
consists of error, chunk_id, is_grounded, main_chunk, domain, difficulty,
tone, language and question_length — the sampled context of the failed
task TOGETHER WITH the full source chunk text in `main_chunk`. -/
theorem failure_record_fields (env : GenEnv) (cfg : GenConfig) (i : ℕ) (c : Chunk)
    (all : List Chunk) (p : Params) (task e : String)
    (hs : env.sample c = .ok p) (ht : env.taskText = .ok task)
    (hl : env.llm (taskMessages cfg c all p task) = .error e) :
    generate_single_question env cfg i c all
      = .ok (.failure
          { error := e, chunk_id := c.chunk_id, is_grounded := p.is_grounded,
            main_chunk := c.chunk, domain := p.domain, difficulty := p.difficulty,
            tone := p.tone, language := p.language,
            question_length := p.question_length }) := by
  rw [generate_single_eq env cfg i c all p task hs ht, hl]
  rfl

/-- C2 amended: if parameter sampling and the task-text read succeed for
every chunk, no exception escapes `generate_synthetic_questions`: it
returns an accepted list and a failed list whose lengths sum to N, and
the failed count equals the number of tasks whose body failed inside the
caught region (generation call or result extraction).  Errors raised
BEFORE the `try` block — parameter sampling or the task-text read — are
not caught and propagate (see the counterexample). -/
theorem orchestration_isolation (env : GenEnv) (cfg : GenConfig) (chunks : List Chunk)
    (hs : ∀ c ∈ chunks, ∃ p, env.sample c = .ok p)
    (ht : ∃ s, env.taskText = .ok s) :
    ∃ acc fl, generate_synthetic_questions env cfg chunks = .ok (acc, fl)
      ∧ acc.length + fl.length = chunks.length
      ∧ fl.length = (List.enumFrom 0 chunks).countP
          (fun pr => taskFails env cfg chunks pr.1 pr.2) :=
  genGo_spec env cfg chunks chunks 0 hs ht

/-- C2 counterexample: a task whose parameter sampling raises is NOT
captured as a failure record — the exception escapes
`generate_synthetic_questions`, which returns no lists at all.  (With
N = 1 task that always fails this way, the run does not return N − 1 = 0
accepted records and one failure record.) -/
theorem orchestration_cex :
    generate_synthetic_questions envBad cfgW [cSec] = .error "boom"
    ∧ (generate_synthetic_questions envBad cfgW [cSec]).toOption = none :=
  ⟨rfl, rfl⟩

/-- Witness for the amended C2: one task whose generator call raises;
sampling and the task text succeed, so the run returns with the counts
accounted for. -/
theorem orchestration_isolation_witness :
    (∀ c ∈ [cSec], ∃ p, envErr.sample c = .ok p)
    ∧ (∃ s, envErr.taskText = .ok s)
    ∧ (∃ acc fl, generate_synthetic_questions envErr cfgW [cSec] = .ok (acc, fl)
        ∧ acc.length + fl.length = ([cSec] : List Chunk).length
        ∧ fl.length = (List.enumFrom 0 [cSec]).countP
            (fun pr => taskFails envErr cfgW [cSec] pr.1 pr.2)) :=
  ⟨fun _ _ => ⟨pW1, rfl⟩, ⟨"TASK", rfl⟩,
   orchestration_isolation envErr cfgW [cSec] (fun _ _ => ⟨pW1, rfl⟩) ⟨"TASK", rfl⟩⟩

/-- Witness for C7 on the all-success single-chunk run. -/
theorem synthetic_ids_unique_witness :
    (∀ j < ([cSec] : List Chunk).length, (envGood.freshId j).length = 8)
    ∧ ((List.range ([cSec] : List Chunk).length).map envGood.freshId).Nodup
    ∧ generate_synthetic_questions envGood cfgW [cSec] = .ok (accW, [])
    ∧ ((accW.map fun d => d.synthetic_chunk_id).Nodup
       ∧ ∀ d ∈ accW, ∃ j, j < ([cSec] : List Chunk).length
           ∧ d.synthetic_chunk_id = d.chunk_id ++ "_synthetic_" ++ envGood.freshId j) :=
  ⟨by decide, by decide, rfl,
   synthetic_ids_unique envGood cfgW [cSec] accW [] (by decide) (by decide) rfl⟩

/-- C8 counterexample: the failure record produced for a failed
generation task DOES include the source chunk text: its `main_chunk`
field is the full text of the chunk ("SECRET" here). -/
theorem failure_includes_source_text_cex :
    generate_single_question envErr cfgW 0 cSec [cSec]
      = .ok (.failure (mkFailureRecord cSec pW1 "boom"))
    ∧ (mkFailureRecord cSec pW1 "boom").main_chunk = "SECRET"
    ∧ cSec.chunk = "SECRET"
    ∧ (mkFailureRecord cSec pW1 "boom").main_chunk ≠ "" :=
  ⟨rfl, rfl, rfl, by decide⟩

/-- Witness for the amended C8 at the concrete failing task. -/
theorem failure_record_fields_witness :
    (envErr.sample cSec = .ok pW1) ∧ (envErr.taskText = .ok "TASK")
    ∧ (envErr.llm (taskMessages cfgW cSec [cSec] pW1 "TASK") = .error "boom")
    ∧ generate_single_question envErr cfgW 0 cSec [cSec]
        = .ok (.failure
            { error := "boom", chunk_id := cSec.chunk_id, is_grounded := pW1.is_grounded,
              main_chunk := cSec.chunk, domain := pW1.domain,
              difficulty := pW1.difficulty, tone := pW1.tone,
              language := pW1.language, question_length := pW1.question_length }) :=
  ⟨rfl, rfl, rfl,
   failure_record_fields envErr cfgW 0 cSec [cSec] pW1 "TASK" "boom" rfl rfl rfl⟩

/-- Witness for C9 at a concrete mixed input (one accepted, one rejected,
one duplicate-removed record). -/
theorem filter_partition_spec_witness :
    (filter_synthetic_questions (fun _ => simC1) [dupR0, dupR1, dupR2] 5 50 q95 true
        = .ok ([dupR0, dupR2],
            [withReason dupR1 ("Duplicate (similarity >= " ++ toString q95 ++ ")")]))
    ∧ (([dupR0, dupR2] : List SynthRecord).Sublist [dupR0, dupR1, dupR2]
    ∧ (([dupR0, dupR2] : List SynthRecord).map stripReason
        ++ ([withReason dupR1 ("Duplicate (similarity >= " ++ toString q95 ++ ")")]).map
            stripReason).Perm (([dupR0, dupR1, dupR2] : List SynthRecord).map stripReason)
    ∧ (∀ r ∈ [withReason dupR1 ("Duplicate (similarity >= " ++ toString q95 ++ ")")],
        ∃ r₀ ∈ ([dupR0, dupR1, dupR2] : List SynthRecord), ∃ s, r = withReason r₀ s)) :=
  ⟨by decide,
   filter_partition_spec (fun _ => simC1) [dupR0, dupR1, dupR2] 5 50 q95 true
     [dupR0, dupR2] [withReason dupR1 ("Duplicate (similarity >= " ++ toString q95 ++ ")")]
     (by decide)⟩
